import Mathlib

/-!
Shallow embedding of the quantum-cryptex backtesting and decision core
(package `nba_fanduel_sim`) in Lean 4, with theorems settling the frozen
claims about its specification.

Python floats are modelled as exact rationals (`ℚ`).  The two transcendental
library calls used by the rating model and the power vig-removal policy
(`10 ** x` and `np.log`, `x ** power`) are modelled as explicit function
parameters; theorems that need facts about them (positivity, strict
monotonicity) take those facts as hypotheses, all of which hold of the real
functions they stand for.
-/

namespace QuantumCryptex

/-! ## odds/fanduel_odds_utils.py -/

/-- Embedding of `american_to_probability`: implied probability of American
odds (`|odds|/(|odds|+100)` for negative odds, `100/(odds+100)` otherwise). -/
def american_to_probability (american_odds : ℚ) : ℚ :=
  if american_odds < 0 then
    |american_odds| / (|american_odds| + 100)
  else
    100 / (american_odds + 100)

/-- Embedding of `probability_to_american`: inverse transform, favorite
branch for `p ≥ 0.5`. -/
def probability_to_american (probability : ℚ) : ℚ :=
  if probability ≥ 1/2 then
    -100 * probability / (1 - probability)
  else
    100 * (1 - probability) / probability

/-- Embedding of `american_to_decimal`: decimal payout multiple. -/
def american_to_decimal (american_odds : ℚ) : ℚ :=
  if american_odds < 0 then
    1 + (100 / |american_odds|)
  else
    1 + (american_odds / 100)

/-- Embedding of `calculate_payout`: total payout of a winning stake. -/
def calculate_payout (stake : ℚ) (american_odds : ℚ) : ℚ :=
  stake * american_to_decimal american_odds

/-- Embedding of `calculate_profit`: profit of a winning stake. -/
def calculate_profit (stake : ℚ) (american_odds : ℚ) : ℚ :=
  calculate_payout stake american_odds - stake

/-- Embedding of `validate_fanduel_odds`: the "sane range" of American odds
accepted by the code (`-10000 ≤ odds ≤ 10000`, `odds ≠ 0`). -/
def validate_fanduel_odds (american_odds : ℚ) : Bool :=
  decide (-10000 ≤ american_odds ∧ american_odds ≤ 10000 ∧ american_odds ≠ 0)

/-- Embedding of `get_market_vig`: the overround of a two-way market. -/
def get_market_vig (prob_a prob_b : ℚ) : ℚ :=
  (prob_a + prob_b) - 1

/-! ## odds/vig_removal.py -/

/-- Embedding of `remove_vig_proportional`. -/
def remove_vig_proportional (prob_a prob_b : ℚ) : ℚ × ℚ :=
  let total := prob_a + prob_b
  if total = 0 then (1/2, 1/2)
  else (prob_a / total, prob_b / total)

/-- Embedding of `remove_vig_additive`: subtract half the vig from each side,
clamp each into `[0.01, 0.99]`, then renormalize. -/
def remove_vig_additive (prob_a prob_b : ℚ) : ℚ × ℚ :=
  let vig := get_market_vig prob_a prob_b
  let fair_a := prob_a - vig / 2
  let fair_b := prob_b - vig / 2
  let fair_a := max (1/100) (min (99/100) fair_a)
  let fair_b := max (1/100) (min (99/100) fair_b)
  let total := fair_a + fair_b
  (fair_a / total, fair_b / total)

/-- Embedding of `remove_vig_power`.  The Python `prob ** power` is modelled
by the explicit parameter `powQ : base → exponent → value`. -/
def remove_vig_power (powQ : ℚ → ℚ → ℚ) (prob_a prob_b : ℚ)
    (power : ℚ) : ℚ × ℚ :=
  let prob_a_powered := powQ prob_a power
  let prob_b_powered := powQ prob_b power
  let total := prob_a_powered + prob_b_powered
  if total = 0 then (1/2, 1/2)
  else (prob_a_powered / total, prob_b_powered / total)

/-- Embedding of `remove_vig_shin` (the simplified asymmetric policy): the
vig is split 45/55, the favorite keeping more of it; the pair is then
renormalized. -/
def remove_vig_shin (prob_a prob_b : ℚ) : ℚ × ℚ :=
  let vig := get_market_vig prob_a prob_b
  let adjustment_a := if prob_a > prob_b then vig * (45/100) else vig * (55/100)
  let adjustment_b := if prob_a > prob_b then vig * (55/100) else vig * (45/100)
  let fair_a := prob_a - adjustment_a
  let fair_b := prob_b - adjustment_b
  let total := fair_a + fair_b
  (fair_a / total, fair_b / total)

/-! ## strategy/bet_sizing.py -/

/-- Embedding of the `BetSizingMethod` literal type
(`"flat" | "kelly" | "fractional_kelly"`). -/
inductive BetSizingMethod
  | flat
  | kelly
  | fractional_kelly
deriving DecidableEq, Repr

/-- Embedding of `calculate_kelly_stake`: full Kelly fraction
`(b·p − q)/b` with `b = decimal_odds − 1`, clamped to be nonnegative,
times the bankroll. -/
def calculate_kelly_stake (probability american_odds bankroll : ℚ) : ℚ :=
  let decimal_odds := american_to_decimal american_odds
  let b := decimal_odds - 1
  let p := probability
  let q := 1 - probability
  let kelly_fraction := (b * p - q) / b
  let kelly_fraction := max 0 kelly_fraction
  bankroll * kelly_fraction

/-- Embedding of `calculate_fractional_kelly`. -/
def calculate_fractional_kelly (probability american_odds bankroll : ℚ)
    (kelly_fraction : ℚ) : ℚ :=
  calculate_kelly_stake probability american_odds bankroll * kelly_fraction

/-- Embedding of `calculate_flat_stake`. -/
def calculate_flat_stake (bankroll flat_percentage : ℚ) : ℚ :=
  bankroll * flat_percentage

/-- Embedding of `calculate_stake`: raw stake by method, capped at
`bankroll * max_bet_percentage`, optionally by `max_bet_amount`, and zeroed
when below `min_bet_amount`.  The `ValueError` branch for an unknown method
string is unreachable over the `BetSizingMethod` literal type. -/
def calculate_stake (probability american_odds bankroll : ℚ)
    (method : BetSizingMethod) (kelly_fraction flat_percentage : ℚ)
    (max_bet_percentage min_bet_amount : ℚ) (max_bet_amount : Option ℚ) : ℚ :=
  let stake :=
    match method with
    | .flat => calculate_flat_stake bankroll flat_percentage
    | .kelly => calculate_kelly_stake probability american_odds bankroll
    | .fractional_kelly =>
        calculate_fractional_kelly probability american_odds bankroll kelly_fraction
  let max_stake := bankroll * max_bet_percentage
  let stake := min stake max_stake
  let stake :=
    match max_bet_amount with
    | some m => min stake m
    | none => stake
  if stake < min_bet_amount then 0 else stake

/-! ## simulator/bankroll.py

`datetime` values are modelled by their `%Y-%m-%d` day key (`String`), which
is all `bankroll.py` consults; the Python dicts `bets_today` and
`exposure_per_game` are modelled as total functions with the `.get` defaults
(0) built in.  Reason strings keep the Python wording with the `f`-string
numeric interpolation abstracted away. -/

/-- Embedding of the `BetResult` dataclass. -/
structure BetResult where
  bet_id : ℕ
  game_id : String
  date : String
  bet_type : String
  team : String
  stake : ℚ
  odds : ℚ
  won : Option Bool := none
  payout : Option ℚ := none
  profit : Option ℚ := none
  bankroll_before : ℚ := 0
  bankroll_after : Option ℚ := none
  model_prob : ℚ := 0
  ev : ℚ := 0
deriving Repr, DecidableEq

/-- Embedding of `BetResult.settle`: fill in payout, profit and the
post-settlement bankroll snapshot from the outcome. -/
def BetResult.settle (bet : BetResult) (won : Bool) : BetResult :=
  if won then
    let payout := calculate_payout bet.stake bet.odds
    let profit := payout - bet.stake
    { bet with won := some true, payout := some payout, profit := some profit,
               bankroll_after := some (bet.bankroll_before + profit) }
  else
    { bet with won := some false, payout := some 0, profit := some (-bet.stake),
               bankroll_after := some (bet.bankroll_before + -bet.stake) }

/-- Embedding of the mutable state of the `Bankroll` class (constructor
arguments and the fields initialized in `__init__`). -/
structure Bankroll where
  initial_bankroll : ℚ
  current_bankroll : ℚ
  max_bet_percentage : ℚ
  max_daily_bets : ℕ
  max_game_exposure : ℚ
  min_bankroll : ℚ
  bet_history : List BetResult
  peak_bankroll : ℚ
  current_drawdown : ℚ
  max_drawdown : ℚ
  bets_today : String → ℕ
  exposure_per_game : String → ℚ
  next_bet_id : ℕ

/-- Embedding of `Bankroll.__init__`. -/
def Bankroll.mk0 (initial_bankroll : ℚ) (max_bet_percentage : ℚ)
    (max_daily_bets : ℕ) (max_game_exposure : ℚ) (min_bankroll : ℚ) : Bankroll :=
  { initial_bankroll := initial_bankroll
    current_bankroll := initial_bankroll
    max_bet_percentage := max_bet_percentage
    max_daily_bets := max_daily_bets
    max_game_exposure := max_game_exposure
    min_bankroll := min_bankroll
    bet_history := []
    peak_bankroll := initial_bankroll
    current_drawdown := 0
    max_drawdown := 0
    bets_today := fun _ => 0
    exposure_per_game := fun _ => 0
    next_bet_id := 1 }

/-- Embedding of `Bankroll.can_place_bet`: the five checks in source order,
first failing check supplying the reason. -/
def Bankroll.can_place_bet (s : Bankroll) (stake : ℚ) (game_id : String)
    (date : String) : Bool × String :=
  if s.current_bankroll ≤ s.min_bankroll then
    (false, ("Bankroll below minimum threshold"))
  else if stake > s.current_bankroll then
    (false, ("Stake exceeds bankroll"))
  else if stake > s.current_bankroll * s.max_bet_percentage then
    (false, ("Stake exceeds max bet size"))
  else if s.bets_today date ≥ s.max_daily_bets then
    (false, ("Daily bet limit reached"))
  else if s.exposure_per_game game_id + stake >
      s.current_bankroll * s.max_game_exposure then
    (false, ("Game exposure exceeds limit"))
  else
    (true, (""))

/-- Embedding of `Bankroll.place_bet`: check, then create the PENDING
`BetResult`, bump the id and the per-day/per-game counters, and append to
history; a denied check returns `none` with the state untouched. -/
def Bankroll.place_bet (s : Bankroll) (game_id : String) (date : String)
    (bet_type team : String) (stake odds model_prob ev : ℚ) :
    Option BetResult × Bankroll :=
  let (allowed, _reason) := s.can_place_bet stake game_id date
  if allowed then
    let bet : BetResult :=
      { bet_id := s.next_bet_id
        game_id := game_id
        date := date
        bet_type := bet_type
        team := team
        stake := stake
        odds := odds
        bankroll_before := s.current_bankroll
        model_prob := model_prob
        ev := ev }
    let s' :=
      { s with
        next_bet_id := s.next_bet_id + 1
        bets_today := fun d => if d = date then s.bets_today d + 1 else s.bets_today d
        exposure_per_game := fun g =>
          if g = game_id then s.exposure_per_game g + stake else s.exposure_per_game g
        bet_history := s.bet_history ++ [bet] }
    (some bet, s')
  else
    (none, s)

/-- Embedding of `Bankroll.settle_bet`: settle the bet, set the current
bankroll to the bet's post-settlement snapshot, then update peak bankroll,
current drawdown and max drawdown. -/
def Bankroll.settle_bet (s : Bankroll) (bet : BetResult) (won : Bool) : Bankroll :=
  let settled := bet.settle won
  let current := settled.bankroll_after.getD s.current_bankroll
  if current > s.peak_bankroll then
    { s with current_bankroll := current, peak_bankroll := current,
             current_drawdown := 0 }
  else
    let dd := (s.peak_bankroll - current) / s.peak_bankroll
    { s with current_bankroll := current, current_drawdown := dd,
             max_drawdown := max s.max_drawdown dd }

/-- A place/settle operation on the ledger.  `settle idx won` settles the
`idx`-th bet of the history, mirroring a Python caller that holds the
(aliased) `BetResult` returned by `place_bet`. -/
inductive LedgerOp
  | place (game_id date bet_type team : String) (stake odds model_prob ev : ℚ)
  | settle (idx : ℕ) (won : Bool)

/-- Run one ledger operation.  A rejected placement and a settle of a
non-existent index leave the state unchanged; settling also updates the
aliased history entry, as the Python object mutation does. -/
def exec_op (s : Bankroll) : LedgerOp → Bankroll
  | .place game_id date bet_type team stake odds model_prob ev =>
      (s.place_bet game_id date bet_type team stake odds model_prob ev).2
  | .settle idx won =>
      match s.bet_history[idx]? with
      | none => s
      | some bet =>
          let s' := s.settle_bet bet won
          { s' with bet_history := s'.bet_history.set idx (bet.settle won) }

/-- Run a sequence of ledger operations. -/
def exec_ops (s : Bankroll) (ops : List LedgerOp) : Bankroll :=
  ops.foldl exec_op s

/-- Placements of the operation propose a nonnegative stake (settles carry
no stake). -/
def LedgerOp.nonneg_stake : LedgerOp → Prop
  | .place _ _ _ _ stake _ _ _ => 0 ≤ stake
  | .settle _ _ => True

/-- Internal consistency of a ledger state: nonnegative bankroll and max
drawdown, and every recorded bet was staked nonnegatively within the
bankroll snapshot taken at its placement. -/
def Bankroll.Inv (s : Bankroll) : Prop :=
  0 ≤ s.current_bankroll ∧ 0 ≤ s.max_drawdown ∧
    ∀ b ∈ s.bet_history, 0 ≤ b.stake ∧ b.stake ≤ b.bankroll_before

/-! ## models/elo_model.py

The Python `10 ** x` and `np.log x` are modelled by explicit function
parameters `pow10` and `logQ`; every theorem that needs a property of them
(positivity, strict monotonicity, `log 11 > 0`) assumes it explicitly, and
each such property holds of the real functions. -/

/-- The merged game record consumed by the core (the fields the rating
model and the backtester consult). -/
structure Game where
  game_id : String
  date : String
  season : ℤ
  home_team : String
  away_team : String
  home_won : Bool
  margin : ℚ
  spread : ℚ
deriving Repr, DecidableEq

/-- `EloModel.__init__` parameters. -/
structure EloConfig where
  k_factor : ℚ := 20
  home_advantage : ℚ := 100
  initial_rating : ℚ := 1500
  mean_reversion : ℚ := 3/4

/-- The default-constructed `EloModel()`. -/
def elo_default_config : EloConfig := {}

/-- The mutable state of an `EloModel`: the ratings dict, the current
season, and the fitted flag. -/
structure EloState where
  ratings : String → Option ℚ
  current_season : Option ℤ
  is_fitted : Bool

/-- Embedding of `EloModel._ensure_team_rating`. -/
def ensure_team_rating (cfg : EloConfig) (st : EloState) (team : String) : EloState :=
  match st.ratings team with
  | some _ => st
  | none =>
      { st with ratings := fun t =>
          if t = team then some cfg.initial_rating else st.ratings t }

/-- Embedding of `EloModel._get_mov_multiplier`: `log(max(1,|margin|)+1)`,
damped by 0.8 when the rating favorite won. -/
def get_mov_multiplier (logQ : ℚ → ℚ) (margin elo_diff : ℚ) : ℚ :=
  let mov_mult := logQ (max 1 |margin| + 1)
  if (margin > 0 ∧ elo_diff > 0) ∨ (margin < 0 ∧ elo_diff < 0) then
    mov_mult * (8/10)
  else
    mov_mult

/-- Embedding of `EloModel.update`: the home rating gains
`K * movMultiplier * (actual - expected)` and the away rating loses the
same amount; absent teams read as the initial rating.  The away write
follows the home write, as in the source. -/
def elo_update (cfg : EloConfig) (pow10 logQ : ℚ → ℚ) (st : EloState)
    (g : Game) : EloState :=
  let home_elo := (st.ratings g.home_team).getD cfg.initial_rating
  let away_elo := (st.ratings g.away_team).getD cfg.initial_rating
  let elo_diff := home_elo - away_elo + cfg.home_advantage
  let expected_home_win := 1 / (1 + pow10 (-elo_diff / 400))
  let actual_home_win : ℚ := if g.home_won then 1 else 0
  let mov_multiplier := get_mov_multiplier logQ g.margin elo_diff
  let rating_change := cfg.k_factor * mov_multiplier *
    (actual_home_win - expected_home_win)
  { st with ratings := fun t =>
      if t = g.away_team then some (away_elo - rating_change)
      else if t = g.home_team then some (home_elo + rating_change)
      else st.ratings t }

/-- Embedding of `EloModel.predict_proba`: fails when unfitted, ensures
both ratings (mutating the dict), and returns the logistic win
probability of the rating difference plus home advantage. -/
def elo_predict_proba (cfg : EloConfig) (pow10 : ℚ → ℚ) (st : EloState)
    (g : Game) : Except String (ℚ × EloState) :=
  if st.is_fitted then
    let st := ensure_team_rating cfg st g.home_team
    let st := ensure_team_rating cfg st g.away_team
    let home_elo := (st.ratings g.home_team).getD cfg.initial_rating
    let away_elo := (st.ratings g.away_team).getD cfg.initial_rating
    let elo_diff := home_elo - away_elo + cfg.home_advantage
    let win_prob := 1 / (1 + pow10 (-elo_diff / 400))
    .ok (win_prob, st)
  else
    .error ("Model must be fitted before prediction")

/-- Embedding of `EloModel._apply_season_reversion`. -/
def apply_season_reversion (cfg : EloConfig) (st : EloState) : EloState :=
  { st with ratings := fun t =>
      (st.ratings t).map fun current =>
        cfg.mean_reversion * cfg.initial_rating +
          (1 - cfg.mean_reversion) * current }

/-- One iteration of the loop in `EloModel.fit`: season reversion on a
season change, rating initialization for both teams, then `update` with
the game's outcome. -/
def elo_fit_step (cfg : EloConfig) (pow10 logQ : ℚ → ℚ) (st : EloState)
    (g : Game) : EloState :=
  let st :=
    match st.current_season with
    | some season => if g.season ≠ season then apply_season_reversion cfg st else st
    | none => st
  let st := { st with current_season := some g.season }
  let st := ensure_team_rating cfg st g.home_team
  let st := ensure_team_rating cfg st g.away_team
  elo_update cfg pow10 logQ st g

/-- Embedding of `EloModel.fit`: reset the ratings, process the whole
history chronologically through `update`, then mark the model fitted. -/
def elo_fit (cfg : EloConfig) (pow10 logQ : ℚ → ℚ) (data : List Game) :
    Except String EloState :=
  if data = [] then
    .error ("Cannot fit model with empty data")
  else
    let st0 : EloState :=
      { ratings := fun _ => none, current_season := none, is_fitted := false }
    .ok { data.foldl (elo_fit_step cfg pow10 logQ) st0 with is_fitted := true }

/-! ## simulator/backtester.py (model-state projection)

`Backtester.run` resets the bankroll, filters the games, calls
`self.model.fit(games)` on the whole filtered list, and only then iterates
the same list, calling `predict_proba` and then `update` per game (a failed
prediction skips the game).  Opportunity finding and bet placement read the
prediction but never write model state, so the projection below carries
exactly the model state and the per-game predictions of `run`. -/

/-- The model-state portion of `Backtester._process_game`: predict (skip
the game on failure), then update with the game's outcome. -/
def process_game_model (cfg : EloConfig) (pow10 logQ : ℚ → ℚ) (st : EloState)
    (g : Game) : Option ℚ × EloState :=
  match elo_predict_proba cfg pow10 st g with
  | .error _ => (none, st)
  | .ok (p, st') => (some p, elo_update cfg pow10 logQ st' g)

/-- The chronological loop of `Backtester.run`, collecting each game's
prediction (`none` when the prediction failed and the game was skipped). -/
def backtest_loop (cfg : EloConfig) (pow10 logQ : ℚ → ℚ) :
    EloState → List Game → List (Option ℚ)
  | _, [] => []
  | st, g :: rest =>
      let (p, st') := process_game_model cfg pow10 logQ st g
      p :: backtest_loop cfg pow10 logQ st' rest

/-- Embedding of `Backtester.run` projected to the sequence of win
probabilities returned by the Rating Model's predict call for each
processed game: `model.fit(games)` over the full list first, then the
per-game predict/update loop over the same list. -/
def backtest_predictions (cfg : EloConfig) (pow10 logQ : ℚ → ℚ)
    (games : List Game) : Except String (List (Option ℚ)) :=
  if games = [] then
    .error ("No games to backtest after filtering")
  else
    match elo_fit cfg pow10 logQ games with
    | .error e => .error e
    | .ok st => .ok (backtest_loop cfg pow10 logQ st games)

/-- Embedding of `Backtester._determine_bet_outcome`: the settlement
outcome is a plain Boolean (won or lost — no PUSH outcome exists). -/
def determine_bet_outcome (g : Game) (bet_type : String) : Except String Bool :=
  if bet_type = "moneyline_home" then .ok g.home_won
  else if bet_type = "moneyline_away" then .ok (!g.home_won)
  else if bet_type = "spread_home" then .ok (decide (g.margin > -g.spread))
  else if bet_type = "spread_away" then .ok (decide (-g.margin > g.spread))
  else .error ("Unknown bet type")

/-! ## evaluation/variance_analyzer.py

`VarianceAnalyzer.simulate_betting_outcomes(self, bets, n_simulations)`
takes no seed or RNG argument; every trial draws from the process-global
`np.random` stream.  That ambient global stream is modelled explicitly as
`NpRandomState` (an infinite sequence of draws and a cursor) threaded
through the embedding, so that the function's dependence on it is visible.
The function's returned statistics dict is computed from the `results`
array; the embedding returns that array. -/

/-- One entry of the `bets` list (the `model_prob`/`odds`/`stake` keys the
simulation reads, with the `.get` defaults of the source). -/
structure SimBet where
  model_prob : ℚ := 1/2
  odds : ℚ := -110
  stake : ℚ := 100
deriving Repr, DecidableEq

/-- The process-global `np.random` state: a stream of uniform draws and a
cursor. -/
structure NpRandomState where
  draws : ℕ → ℚ
  cursor : ℕ

/-- One call of `np.random.random()` against the global stream. -/
def np_random_random (g : NpRandomState) : ℚ × NpRandomState :=
  (g.draws g.cursor, { g with cursor := g.cursor + 1 })

/-- The inner loop body of `simulate_betting_outcomes`: draw, compare with
the bet's probability, and add the signed profit. -/
def simulate_one_bet (bet : SimBet) (g : NpRandomState) : ℚ × NpRandomState :=
  let (r, g) := np_random_random g
  let won := r < bet.model_prob
  let profit :=
    if won then
      if bet.odds < 0 then bet.stake * (100 / |bet.odds|)
      else bet.stake * (bet.odds / 100)
    else
      -bet.stake
  (profit, g)

/-- One Monte Carlo trial: total signed profit over the bet list. -/
def simulate_trial (bets : List SimBet) (g : NpRandomState) : ℚ × NpRandomState :=
  bets.foldl
    (fun (acc : ℚ × NpRandomState) bet =>
      let (profit, g') := simulate_one_bet bet acc.2
      (acc.1 + profit, g'))
    (0, g)

/-- The trial loop of `simulate_betting_outcomes`, collecting the
`results` array in trial order. -/
def run_trials (bets : List SimBet) : ℕ → NpRandomState → List ℚ × NpRandomState
  | 0, g => ([], g)
  | n + 1, g =>
      let (total, g') := simulate_trial bets g
      let (rest, g'') := run_trials bets n g'
      (total :: rest, g'')

/-- Embedding of `VarianceAnalyzer.simulate_betting_outcomes`: its only
arguments are `bets` and `n_simulations`; the third parameter here is the
ambient global `np.random` state the source implicitly reads. -/
def simulate_betting_outcomes (bets : List SimBet) (n_simulations : ℕ)
    (g : NpRandomState) : List ℚ × NpRandomState :=
  run_trials bets n_simulations g

/-! ## Concrete instances used by the claims -/

/-- A strictly monotone, everywhere-positive rational stand-in for
`x ↦ 10 ** x`, used to witness hypotheses about `pow10`. -/
def pow10_model (x : ℚ) : ℚ :=
  if 0 ≤ x then x + 1 else 1 / (1 - x)

/-- A single synthetic game in which the home side won by 10. -/
def game_home_won : Game :=
  { game_id := "G1", date := "2024-01-01", season := 2024,
    home_team := "AAA", away_team := "BBB",
    home_won := true, margin := 10, spread := 0 }

/-- The same game with only the outcome fields flipped (home lost by 10). -/
def game_home_lost : Game :=
  { game_home_won with home_won := false, margin := -10 }

/-- A game whose realized margin ties the quoted spread exactly. -/
def game_tied : Game :=
  { game_id := "G2", date := "2024-01-02", season := 2024,
    home_team := "AAA", away_team := "BBB",
    home_won := true, margin := -3, spread := 3 }

/-- A concrete pending wager. -/
def bet_pending : BetResult :=
  { bet_id := 1, game_id := "G2", date := "2024-01-02",
    bet_type := "spread_home", team := "AAA",
    stake := 100, odds := -110, bankroll_before := 1000 }

/-! ## Shared helper lemmas -/

/-- The decimal payout multiple is at least 1 for every odds value, so a
winning settlement never loses money on a nonnegative stake. -/
theorem american_to_decimal_ge_one (american_odds : ℚ) :
    1 ≤ american_to_decimal american_odds := by
  unfold american_to_decimal
  split
  · have h : 0 < |american_odds| := abs_pos.mpr (by linarith)
    have : 0 < 100 / |american_odds| := by positivity
    linarith
  · have h : 0 ≤ american_odds := le_of_not_lt (by assumption)
    have : 0 ≤ american_odds / 100 := by positivity
    linarith

/-- Settling only fills outcome fields: stake, odds and the placement-time
bankroll snapshot are unchanged. -/
theorem BetResult.settle_fields (bet : BetResult) (won : Bool) :
    (bet.settle won).stake = bet.stake ∧
      (bet.settle won).bankroll_before = bet.bankroll_before := by
  cases won <;> simp [BetResult.settle]

/-- The bankroll written by `settle_bet` is the settled wager's
placement-time snapshot plus its signed profit. -/
theorem settle_bet_current_eq (s : Bankroll) (bet : BetResult) (won : Bool) :
    (s.settle_bet bet won).current_bankroll =
      bet.bankroll_before +
        (if won then calculate_profit bet.stake bet.odds else -bet.stake) := by
  unfold Bankroll.settle_bet BetResult.settle
  cases won <;>
    simp [calculate_profit, apply_ite Bankroll.current_bankroll]

/-- `settle_bet` does not touch the bet history (the caller's aliased
`BetResult` is mutated separately). -/
theorem settle_bet_history (s : Bankroll) (bet : BetResult) (won : Bool) :
    (s.settle_bet bet won).bet_history = s.bet_history := by
  simp only [Bankroll.settle_bet]
  split_ifs <;> rfl

/-- The peak/drawdown bookkeeping of one `settle_bet` call: the peak is
the running max, the current drawdown is `(peak − current)/peak`, and the
max drawdown is the running max of the current drawdown (this needs the
invariant `0 ≤ max_drawdown`). -/
theorem settle_bet_drawdown_step (s : Bankroll) (bet : BetResult) (won : Bool)
    (hmdd : 0 ≤ s.max_drawdown) :
    (s.settle_bet bet won).peak_bankroll =
        max s.peak_bankroll (s.settle_bet bet won).current_bankroll ∧
      (s.settle_bet bet won).current_drawdown =
        ((s.settle_bet bet won).peak_bankroll -
          (s.settle_bet bet won).current_bankroll) /
          (s.settle_bet bet won).peak_bankroll ∧
      (s.settle_bet bet won).max_drawdown =
        max s.max_drawdown (s.settle_bet bet won).current_drawdown := by
  unfold Bankroll.settle_bet
  set c := ((bet.settle won).bankroll_after).getD s.current_bankroll with hc
  by_cases hgt : c > s.peak_bankroll
  · rw [if_pos hgt]
    refine ⟨(max_eq_right hgt.le).symm, by simp, (max_eq_left hmdd).symm⟩
  · rw [if_neg hgt]
    exact ⟨(max_eq_left (le_of_not_lt hgt)).symm, rfl, rfl⟩

/-- An accepted placement check implies the stake fits in the current
bankroll. -/
theorem can_place_bet_stake_le (s : Bankroll) (stake : ℚ)
    (game_id date : String)
    (h : (s.can_place_bet stake game_id date).1 = true) :
    stake ≤ s.current_bankroll := by
  unfold Bankroll.can_place_bet at h
  split_ifs at h with h1 h2 h3 h4 h5 <;> simp_all [not_lt]

/-- One ledger operation preserves the internal-consistency invariant,
provided a placement never proposes a negative stake. -/
theorem exec_op_preserves_inv (s : Bankroll) (op : LedgerOp)
    (hop : op.nonneg_stake) (h : s.Inv) : (exec_op s op).Inv := by
  obtain ⟨hcur, hmdd, hhist⟩ := h
  cases op with
  | place game_id date bet_type team stake odds model_prob ev =>
      simp only [exec_op, Bankroll.place_bet]
      rcases hcp : s.can_place_bet stake game_id date with ⟨allowed, r⟩
      cases allowed
      · exact ⟨hcur, hmdd, hhist⟩
      · refine ⟨hcur, hmdd, ?_⟩
        intro b hb
        rcases List.mem_append.mp hb with hb2 | hb2
        · exact hhist b hb2
        · rw [List.mem_singleton] at hb2
          subst hb2
          exact ⟨hop, can_place_bet_stake_le s stake game_id date
            (by rw [hcp])⟩
  | settle idx won =>
      simp only [exec_op]
      cases hbh : s.bet_history[idx]? with
      | none => exact ⟨hcur, hmdd, hhist⟩
      | some bet =>
          have hbmem : bet ∈ s.bet_history := by
            obtain ⟨hlt, hget⟩ := List.getElem?_eq_some.mp hbh
            exact hget ▸ List.getElem_mem hlt
          obtain ⟨hbs, hbb⟩ := hhist bet hbmem
          refine ⟨?_, ?_, ?_⟩
          · show 0 ≤ (s.settle_bet bet won).current_bankroll
            rw [settle_bet_current_eq]
            have hdec := american_to_decimal_ge_one bet.odds
            have hprof : 0 ≤ calculate_profit bet.stake bet.odds := by
              unfold calculate_profit calculate_payout
              nlinarith
            cases won <;> simp <;> linarith
          · show 0 ≤ (s.settle_bet bet won).max_drawdown
            rcases settle_bet_drawdown_step s bet won hmdd with ⟨_, _, hstep⟩
            rw [hstep]
            exact le_trans hmdd (le_max_left _ _)
          · intro b hb
            have hb' : b ∈ s.bet_history.set idx (bet.settle won) := by
              rw [← settle_bet_history s bet won]
              exact hb
            rcases List.mem_or_eq_of_mem_set hb' with hmem | rfl
            · exact hhist b hmem
            · rcases BetResult.settle_fields bet won with ⟨h1, h2⟩
              rw [h1, h2]
              exact ⟨hbs, hbb⟩

/-- A whole operation sequence preserves the invariant. -/
theorem exec_ops_preserves_inv (s : Bankroll) (ops : List LedgerOp)
    (hops : ∀ op ∈ ops, op.nonneg_stake) (h : s.Inv) :
    (exec_ops s ops).Inv := by
  induction ops generalizing s with
  | nil => exact h
  | cons op rest ih =>
      exact ih (exec_op s op)
        (fun o ho => hops o (List.mem_cons_of_mem op ho))
        (exec_op_preserves_inv s op (hops op (List.mem_cons_self op rest)) h)

/-! ## Claims -/

/-- Claim C3 (code_bug evidence): `simulate_betting_outcomes` has no seed
or RNG parameter; called twice with identical `bets` and `n_simulations`
but a different ambient global `np.random` stream, it returns different
results arrays, so its output is not determined by its arguments. -/
theorem claim_C3_global_rng_dependence :
    (simulate_betting_outcomes [{}] 1 ⟨fun _ => 0, 0⟩).1 ≠
      (simulate_betting_outcomes [{}] 1 ⟨fun _ => 3/4, 0⟩).1 := by
  simp only [simulate_betting_outcomes, run_trials, simulate_trial,
    simulate_one_bet, np_random_random, List.foldl]
  norm_num

/-- Claim C2 counterexample: on the symmetric two-sided market
`(-110, -110)` (both implied probabilities `11/21`), the simplified
asymmetric/shin policy returns `(209/420, 211/420)`, not `(0.5, 0.5)`,
and the deviation exceeds `1e-6`. -/
theorem claim_C2_counterexample :
    remove_vig_shin (11/21) (11/21) ≠ (1/2, 1/2) ∧
      |(remove_vig_shin (11/21) (11/21)).1 - 1/2| > 1/1000000 := by
  constructor
  · simp only [remove_vig_shin, get_market_vig, gt_iff_lt, lt_self_iff_false,
      if_false]
    norm_num [Prod.ext_iff]
  · simp only [remove_vig_shin, get_market_vig, gt_iff_lt, lt_self_iff_false,
      if_false]
    rw [show (11/21 - (11/21 + 11/21 - 1) * (55/100)) /
        (11/21 - (11/21 + 11/21 - 1) * (55/100) +
          (11/21 - (11/21 + 11/21 - 1) * (45/100))) - 1/2 = (-1/420 : ℚ) by norm_num]
    rw [abs_of_neg (by norm_num)]
    norm_num

/-- Claim C8 counterexample: odds `50` pass `validate_fanduel_odds`
(nonzero, within the sane range), yet the probability round-trip maps
them to `-200`, off by 250 units — far beyond the claimed 1 unit. -/
theorem claim_C8_counterexample :
    validate_fanduel_odds 50 = true ∧
      probability_to_american (american_to_probability 50) = -200 ∧
      |probability_to_american (american_to_probability 50) - 50| > 1 := by
  have h : probability_to_american (american_to_probability 50) = -200 := by
    simp only [american_to_probability, probability_to_american]
    norm_num
  refine ⟨by norm_num [validate_fanduel_odds], h, ?_⟩
  rw [h, abs_of_neg (by norm_num)]
  norm_num

/-- Claim C5 counterexample: the placement-time `stake ≤ bankroll`
invariant does not rule out a negative stake, which `can_place_bet`
accepts; settling such a bet as won drives the bankroll negative. -/
theorem claim_C5_counterexample :
    (-100000 : ℚ) ≤ (Bankroll.mk0 1000 (5/100) 10 (10/100) 0).current_bankroll ∧
      ((Bankroll.mk0 1000 (5/100) 10 (10/100) 0).can_place_bet (-100000)
        ("g1") ("2024-01-01")).1 = true ∧
      (exec_ops (Bankroll.mk0 1000 (5/100) 10 (10/100) 0)
        [.place ("g1") ("2024-01-01") ("moneyline_home") ("AAA")
          (-100000) (-110) 0 0,
         .settle 0 true]).current_bankroll < 0 := by
  refine ⟨by norm_num [Bankroll.mk0], ?_, ?_⟩
  · simp only [Bankroll.mk0, Bankroll.can_place_bet]
    norm_num
  · simp only [exec_ops, List.foldl, exec_op, Bankroll.mk0, Bankroll.place_bet,
      Bankroll.can_place_bet, Bankroll.settle_bet, BetResult.settle,
      calculate_payout, american_to_decimal]
    norm_num [abs_of_neg]

/-- Claim C10: settling a wager sets the ledger's current bankroll to the
wager's placement-time snapshot plus its profit (`payout − stake` on a
win, `−stake` on a loss); the pre-settlement ledger bankroll — including
the effect of any settlement that happened in between — is discarded. -/
theorem claim_C10_settlement_overwrites (s : Bankroll) (bet : BetResult)
    (won : Bool) :
    (s.settle_bet bet won).current_bankroll =
        bet.bankroll_before +
          (if won then calculate_profit bet.stake bet.odds else -bet.stake) ∧
      ∀ s₂ : Bankroll, (s.settle_bet bet won).current_bankroll =
        (s₂.settle_bet bet won).current_bankroll :=
  ⟨settle_bet_current_eq s bet won, fun s₂ =>
    (settle_bet_current_eq s bet won).trans
      (settle_bet_current_eq s₂ bet won).symm⟩

/-- Claim C6: the placement check is a total function returning an
allowed/denied decision; it denies exactly when one of the five
constraints fails (bankroll at or below the floor, stake above bankroll,
stake above `max_bet_percentage × bankroll`, daily bet count at the
limit, or event exposure plus the new stake above
`max_game_exposure × bankroll`), every denial carries a nonempty
human-readable reason, and a denied `place_bet` returns `none` with the
whole ledger state — bankroll, history, next id, daily counters, and
per-event exposure — unchanged. -/
theorem claim_C6_denial_atomic (s : Bankroll)
    (game_id date bet_type team : String) (stake odds model_prob ev : ℚ) :
    ((s.can_place_bet stake game_id date).1 = false ↔
      (s.current_bankroll ≤ s.min_bankroll ∨ stake > s.current_bankroll ∨
        stake > s.current_bankroll * s.max_bet_percentage ∨
        s.bets_today date ≥ s.max_daily_bets ∨
        s.exposure_per_game game_id + stake >
          s.current_bankroll * s.max_game_exposure)) ∧
      ((s.can_place_bet stake game_id date).1 = false →
        (s.can_place_bet stake game_id date).2 ≠ "" ∧
        s.place_bet game_id date bet_type team stake odds model_prob ev =
          (none, s)) := by
  constructor
  · unfold Bankroll.can_place_bet
    split_ifs with h1 h2 h3 h4 h5 <;> simp_all [not_le, not_lt]
  · intro hfalse
    refine ⟨?_, ?_⟩
    · unfold Bankroll.can_place_bet at hfalse ⊢
      split_ifs at hfalse ⊢ <;> simp_all
    · rcases hc : s.can_place_bet stake game_id date with ⟨a, r⟩
      rw [hc] at hfalse
      simp only at hfalse
      subst hfalse
      simp [Bankroll.place_bet, hc]

/-- Claim C7: every rating update is zero-sum — for distinct competitors
the home rating gains `Δ = K × movMultiplier × (actual − expected)` and
the away rating loses the same `Δ`, so the sum of the two ratings is
unchanged by the update. -/
theorem claim_C7_zero_sum (cfg : EloConfig) (pow10 logQ : ℚ → ℚ)
    (st : EloState) (g : Game) (h : g.home_team ≠ g.away_team) :
    let home_elo := (st.ratings g.home_team).getD cfg.initial_rating
    let away_elo := (st.ratings g.away_team).getD cfg.initial_rating
    let elo_diff := home_elo - away_elo + cfg.home_advantage
    let expected := 1 / (1 + pow10 (-elo_diff / 400))
    let actual : ℚ := if g.home_won then 1 else 0
    let change := cfg.k_factor * get_mov_multiplier logQ g.margin elo_diff *
      (actual - expected)
    (elo_update cfg pow10 logQ st g).ratings g.home_team =
        some (home_elo + change) ∧
      (elo_update cfg pow10 logQ st g).ratings g.away_team =
        some (away_elo - change) ∧
      ((elo_update cfg pow10 logQ st g).ratings g.home_team).getD
          cfg.initial_rating +
        ((elo_update cfg pow10 logQ st g).ratings g.away_team).getD
          cfg.initial_rating = home_elo + away_elo := by
  refine ⟨by simp [elo_update, h], by simp [elo_update], ?_⟩
  simp [elo_update, h]

/-- Claim C9: a spread wager that ties the line exactly
(`margin = −spread`) is settled as a loss on both sides: the outcome is
the Boolean `false`, the full stake is deducted
(`profit = −stake`, `payout = 0`), and no PUSH outcome exists in the
settlement path. -/
theorem claim_C9_tie_is_loss (g : Game) (bet : BetResult)
    (h : g.margin = -g.spread) :
    determine_bet_outcome g ("spread_home") = .ok false ∧
      determine_bet_outcome g ("spread_away") = .ok false ∧
      (bet.settle false).won = some false ∧
      (bet.settle false).payout = some 0 ∧
      (bet.settle false).profit = some (-bet.stake) ∧
      (bet.settle false).bankroll_after =
        some (bet.bankroll_before - bet.stake) := by
  refine ⟨?_, ?_, ?_, ?_, ?_, ?_⟩
  · simp [determine_bet_outcome, h]
  · simp [determine_bet_outcome, h]
  · simp [BetResult.settle]
  · simp [BetResult.settle]
  · simp [BetResult.settle]
  · simp [BetResult.settle, sub_eq_add_neg]

/-- Claim C4: for any probability in `[0,1]`, any odds accepted by
`validate_fanduel_odds`, and any nonnegative bankroll, the Kelly divisor
`b` is positive (so the sizing computation cannot raise), the full-Kelly
stake is nonnegative, and the final stake is either exactly 0 or lies in
`[min_bet_amount, min(bankroll × max_bet_percentage, max_bet_amount)]`
(the absolute cap applying only when supplied). -/
theorem claim_C4_stake_bounds (probability american_odds bankroll : ℚ)
    (method : BetSizingMethod)
    (kelly_fraction flat_percentage max_bet_percentage min_bet_amount : ℚ)
    (max_bet_amount : Option ℚ)
    (hp0 : 0 ≤ probability) (hp1 : probability ≤ 1)
    (hodds : validate_fanduel_odds american_odds = true)
    (hbr : 0 ≤ bankroll) :
    0 < american_to_decimal american_odds - 1 ∧
      0 ≤ calculate_kelly_stake probability american_odds bankroll ∧
      (calculate_stake probability american_odds bankroll method
          kelly_fraction flat_percentage max_bet_percentage min_bet_amount
          max_bet_amount = 0 ∨
        (min_bet_amount ≤ calculate_stake probability american_odds bankroll
            method kelly_fraction flat_percentage max_bet_percentage
            min_bet_amount max_bet_amount ∧
          calculate_stake probability american_odds bankroll method
            kelly_fraction flat_percentage max_bet_percentage min_bet_amount
            max_bet_amount ≤ bankroll * max_bet_percentage ∧
          ∀ m, max_bet_amount = some m →
            calculate_stake probability american_odds bankroll method
              kelly_fraction flat_percentage max_bet_percentage
              min_bet_amount max_bet_amount ≤ m)) := by
  have hodds' : (-10000 : ℚ) ≤ american_odds ∧ american_odds ≤ 10000 ∧
      american_odds ≠ 0 := by
    simpa [validate_fanduel_odds] using hodds
  refine ⟨?_, ?_, ?_⟩
  · unfold american_to_decimal
    split
    · have habs : 0 < |american_odds| := abs_pos.mpr hodds'.2.2
      have : 0 < 100 / |american_odds| := by positivity
      linarith
    · have hge : 0 ≤ american_odds := le_of_not_lt (by assumption)
      have hpos : 0 < american_odds := lt_of_le_of_ne hge (Ne.symm hodds'.2.2)
      have : 0 < american_odds / 100 := by positivity
      linarith
  · unfold calculate_kelly_stake
    exact mul_nonneg hbr (le_max_left 0 _)
  · simp only [calculate_stake]
    rcases max_bet_amount with _ | m <;> split_ifs with hlt
    · exact Or.inl rfl
    · refine Or.inr ⟨le_of_not_lt hlt, min_le_right _ _, ?_⟩
      intro m hm
      exact hm.elim
    · exact Or.inl rfl
    · refine Or.inr ⟨le_of_not_lt hlt,
        le_trans (min_le_left _ _) (min_le_right _ _), ?_⟩
      intro m' hm
      cases hm
      exact min_le_right _ _

/-- Witness for claim C6: a ledger whose bankroll sits at the floor denies
a proposed bet and the denied placement leaves the state unchanged. -/
theorem claim_C6_denial_atomic_witness :
    ((Bankroll.mk0 0 (5/100) 10 (1/10) 0).can_place_bet 10 ("g1")
        ("2024-01-01")).1 = false ∧
      (Bankroll.mk0 0 (5/100) 10 (1/10) 0).place_bet ("g1") ("2024-01-01")
        ("moneyline_home") ("AAA") 10 (-110) 0 0 =
        (none, Bankroll.mk0 0 (5/100) 10 (1/10) 0) := by
  have hfalse : ((Bankroll.mk0 0 (5/100) 10 (1/10) 0).can_place_bet 10 ("g1")
      ("2024-01-01")).1 = false := by
    simp [Bankroll.mk0, Bankroll.can_place_bet]
  exact ⟨hfalse,
    ((claim_C6_denial_atomic (Bankroll.mk0 0 (5/100) 10 (1/10) 0) ("g1")
      ("2024-01-01") ("moneyline_home") ("AAA") 10 (-110) 0 0).2 hfalse).2⟩

/-- Witness for claim C7: updating a fresh model with the synthetic game
leaves the two teams' rating sum at `1500 + 1500`. -/
theorem claim_C7_zero_sum_witness :
    game_home_won.home_team ≠ game_home_won.away_team ∧
      ((elo_update elo_default_config (fun _ => 1) (fun _ => 1)
          ⟨fun _ => none, none, false⟩ game_home_won).ratings
          game_home_won.home_team).getD elo_default_config.initial_rating +
        ((elo_update elo_default_config (fun _ => 1) (fun _ => 1)
          ⟨fun _ => none, none, false⟩ game_home_won).ratings
          game_home_won.away_team).getD elo_default_config.initial_rating =
        1500 + 1500 := by
  have hne : game_home_won.home_team ≠ game_home_won.away_team := by
    simp [game_home_won]
  refine ⟨hne, ?_⟩
  have h := (claim_C7_zero_sum elo_default_config (fun _ => 1) (fun _ => 1)
    ⟨fun _ => none, none, false⟩ game_home_won hne).2.2
  simpa [elo_default_config] using h

/-- Witness for claim C9: a home −3 spread wager with the home side
winning by exactly 3 loses on both sides and forfeits the full stake. -/
theorem claim_C9_tie_is_loss_witness :
    game_tied.margin = -game_tied.spread ∧
      determine_bet_outcome game_tied ("spread_home") = .ok false ∧
      determine_bet_outcome game_tied ("spread_away") = .ok false ∧
      (bet_pending.settle false).profit = some (-bet_pending.stake) := by
  have hm : game_tied.margin = -game_tied.spread := by
    simp [game_tied]
  have h := claim_C9_tie_is_loss game_tied bet_pending hm
  exact ⟨hm, h.1, h.2.1, h.2.2.2.2.1⟩

/-- Witness for claim C4: concrete sizing inputs satisfy the bounds. -/
theorem claim_C4_stake_bounds_witness :
    0 < american_to_decimal (-110) - 1 ∧
      0 ≤ calculate_kelly_stake (11/20) (-110) 1000 := by
  have h := claim_C4_stake_bounds (11/20) (-110) 1000 .fractional_kelly
    (1/4) (1/100) (5/100) 10 none (by norm_num) (by norm_num)
    (by simp [validate_fanduel_odds]; norm_num) (by norm_num)
  exact ⟨h.1, h.2.1⟩

/-- Proportional vig removal on a two-sided market with positive inputs
summing above 1: nonnegative outputs, exact sum 1, and `(0.5, 0.5)` on
equal inputs. -/
theorem remove_vig_proportional_spec (a b : ℚ) (ha : 0 < a) (hb : 0 < b)
    (hsum : 1 < a + b) :
    0 ≤ (remove_vig_proportional a b).1 ∧
      0 ≤ (remove_vig_proportional a b).2 ∧
      (remove_vig_proportional a b).1 + (remove_vig_proportional a b).2 = 1 ∧
      (a = b → remove_vig_proportional a b = (1/2, 1/2)) := by
  have htot : (0 : ℚ) < a + b := by linarith
  unfold remove_vig_proportional
  rw [if_neg htot.ne']
  refine ⟨div_nonneg ha.le htot.le, div_nonneg hb.le htot.le, ?_, ?_⟩
  · rw [div_add_div_same, div_self htot.ne']
  · intro hab
    subst hab
    have h2 : a + a ≠ 0 := by linarith
    rw [Prod.mk.injEq]
    constructor <;> · field_simp; ring

/-- Additive vig removal: nonnegative outputs, exact sum 1, and
`(0.5, 0.5)` on equal inputs (the clamp leaves `1/2` untouched). -/
theorem remove_vig_additive_spec (a b : ℚ) (ha : 0 < a) (hb : 0 < b)
    (hsum : 1 < a + b) :
    0 ≤ (remove_vig_additive a b).1 ∧
      0 ≤ (remove_vig_additive a b).2 ∧
      (remove_vig_additive a b).1 + (remove_vig_additive a b).2 = 1 ∧
      (a = b → remove_vig_additive a b = (1/2, 1/2)) := by
  simp only [remove_vig_additive, get_market_vig]
  have hca : (1/100 : ℚ) ≤ max (1/100) (min (99/100) (a - (a + b - 1) / 2)) :=
    le_max_left _ _
  have hcb : (1/100 : ℚ) ≤ max (1/100) (min (99/100) (b - (a + b - 1) / 2)) :=
    le_max_left _ _
  have htot : (0 : ℚ) <
      max (1/100) (min (99/100) (a - (a + b - 1) / 2)) +
        max (1/100) (min (99/100) (b - (a + b - 1) / 2)) := by linarith
  refine ⟨by positivity, by positivity, ?_, ?_⟩
  · rw [div_add_div_same, div_self htot.ne']
  · intro hab
    subst hab
    have hhalf : a - (a + a - 1) / 2 = 1/2 := by ring
    rw [hhalf, show min (99/100 : ℚ) (1/2) = 1/2 by norm_num,
      show max (1/100 : ℚ) (1/2) = 1/2 by norm_num]
    norm_num [Prod.mk.injEq]

/-- Power vig removal (any nonnegativity-preserving power transform):
nonnegative outputs, exact sum 1, and `(0.5, 0.5)` on equal inputs. -/
theorem remove_vig_power_spec (powQ : ℚ → ℚ → ℚ) (a b e : ℚ)
    (ha : 0 < a) (hb : 0 < b)
    (hpow : ∀ x p, 0 < x → 0 ≤ powQ x p) :
    0 ≤ (remove_vig_power powQ a b e).1 ∧
      0 ≤ (remove_vig_power powQ a b e).2 ∧
      (remove_vig_power powQ a b e).1 + (remove_vig_power powQ a b e).2 = 1 ∧
      (a = b → remove_vig_power powQ a b e = (1/2, 1/2)) := by
  have hpa : 0 ≤ powQ a e := hpow a e ha
  have hpb : 0 ≤ powQ b e := hpow b e hb
  unfold remove_vig_power
  by_cases htot : powQ a e + powQ b e = 0
  · rw [if_pos htot]
    norm_num
  · rw [if_neg htot]
    have htot' : 0 < powQ a e + powQ b e :=
      lt_of_le_of_ne (by linarith) (Ne.symm htot)
    refine ⟨div_nonneg hpa htot'.le, div_nonneg hpb htot'.le, ?_, ?_⟩
    · rw [div_add_div_same, div_self htot]
    · intro hab
      subst hab
      have hne : powQ a e ≠ 0 := fun hz => htot (by rw [hz]; ring)
      rw [Prod.mk.injEq]
      constructor <;> · field_simp; ring

/-- Simplified asymmetric (shin) vig removal: nonnegative outputs and
exact sum 1; on equal inputs it does NOT symmetrize — the vig is split
55/45, leaving `(p − 0.55·vig, p − 0.45·vig)`. -/
theorem remove_vig_shin_spec (a b : ℚ) (ha : 0 < a) (ha1 : a ≤ 1)
    (hb : 0 < b) (hb1 : b ≤ 1) (hsum : 1 < a + b) :
    0 ≤ (remove_vig_shin a b).1 ∧
      0 ≤ (remove_vig_shin a b).2 ∧
      (remove_vig_shin a b).1 + (remove_vig_shin a b).2 = 1 ∧
      (a = b → remove_vig_shin a b =
        (a - get_market_vig a b * (55/100),
         b - get_market_vig a b * (45/100))) := by
  simp only [remove_vig_shin, get_market_vig]
  have hv : (0 : ℚ) < a + b - 1 := by linarith
  have hva : a + b - 1 ≤ a := by linarith
  have hvb : a + b - 1 ≤ b := by linarith
  by_cases hab : a > b
  · rw [if_pos hab, if_pos hab]
    have htot : a - (a + b - 1) * (45/100) + (b - (a + b - 1) * (55/100)) = 1 := by
      ring
    rw [htot]
    refine ⟨by rw [div_one]; linarith, by rw [div_one]; linarith,
      by rw [div_one, div_one]; linarith, ?_⟩
    intro he
    exact absurd hab (by rw [he]; exact lt_irrefl b)
  · rw [if_neg hab, if_neg hab]
    have htot : a - (a + b - 1) * (55/100) + (b - (a + b - 1) * (45/100)) = 1 := by
      ring
    rw [htot]
    refine ⟨by rw [div_one]; linarith, by rw [div_one]; linarith,
      by rw [div_one, div_one]; linarith, ?_⟩
    intro _
    rw [div_one, div_one]

/-- Claim C2 (amended): for input probabilities in `(0, 1]` summing above
1, each of the four vig-removal policies returns a pair of nonnegative
probabilities summing to exactly 1; proportional, additive and power
reduce to `(0.5, 0.5)` on equal inputs, while the simplified
asymmetric/shin policy instead returns
`(p − 0.55·vig, p − 0.45·vig)` there. -/
theorem claim_C2_vig_removal_amended (prob_a prob_b : ℚ) (powQ : ℚ → ℚ → ℚ)
    (ha0 : 0 < prob_a) (ha1 : prob_a ≤ 1) (hb0 : 0 < prob_b)
    (hb1 : prob_b ≤ 1) (hsum : 1 < prob_a + prob_b)
    (hpow : ∀ x p, 0 < x → 0 ≤ powQ x p) :
    (0 ≤ (remove_vig_proportional prob_a prob_b).1 ∧
      0 ≤ (remove_vig_proportional prob_a prob_b).2 ∧
      (remove_vig_proportional prob_a prob_b).1 +
        (remove_vig_proportional prob_a prob_b).2 = 1 ∧
      (prob_a = prob_b →
        remove_vig_proportional prob_a prob_b = (1/2, 1/2))) ∧
    (0 ≤ (remove_vig_additive prob_a prob_b).1 ∧
      0 ≤ (remove_vig_additive prob_a prob_b).2 ∧
      (remove_vig_additive prob_a prob_b).1 +
        (remove_vig_additive prob_a prob_b).2 = 1 ∧
      (prob_a = prob_b → remove_vig_additive prob_a prob_b = (1/2, 1/2))) ∧
    (0 ≤ (remove_vig_power powQ prob_a prob_b (3/2)).1 ∧
      0 ≤ (remove_vig_power powQ prob_a prob_b (3/2)).2 ∧
      (remove_vig_power powQ prob_a prob_b (3/2)).1 +
        (remove_vig_power powQ prob_a prob_b (3/2)).2 = 1 ∧
      (prob_a = prob_b →
        remove_vig_power powQ prob_a prob_b (3/2) = (1/2, 1/2))) ∧
    (0 ≤ (remove_vig_shin prob_a prob_b).1 ∧
      0 ≤ (remove_vig_shin prob_a prob_b).2 ∧
      (remove_vig_shin prob_a prob_b).1 +
        (remove_vig_shin prob_a prob_b).2 = 1 ∧
      (prob_a = prob_b → remove_vig_shin prob_a prob_b =
        (prob_a - get_market_vig prob_a prob_b * (55/100),
         prob_b - get_market_vig prob_a prob_b * (45/100)))) :=
  ⟨remove_vig_proportional_spec prob_a prob_b ha0 hb0 hsum,
   remove_vig_additive_spec prob_a prob_b ha0 hb0 hsum,
   remove_vig_power_spec powQ prob_a prob_b (3/2) ha0 hb0 hpow,
   remove_vig_shin_spec prob_a prob_b ha0 ha1 hb0 hb1 hsum⟩

/-- Witness for claim C2 (amended): at the symmetric `-110 vs -110` market,
all four policies sum to 1 and the shin policy keeps its asymmetric
split. -/
theorem claim_C2_vig_removal_amended_witness :
    ((remove_vig_proportional (11/21) (11/21)).1 +
        (remove_vig_proportional (11/21) (11/21)).2 = 1) ∧
      ((remove_vig_additive (11/21) (11/21)).1 +
        (remove_vig_additive (11/21) (11/21)).2 = 1) ∧
      ((remove_vig_shin (11/21) (11/21)).1 +
        (remove_vig_shin (11/21) (11/21)).2 = 1) ∧
      remove_vig_proportional (11/21) (11/21) = (1/2, 1/2) ∧
      remove_vig_shin (11/21) (11/21) =
        (11/21 - get_market_vig (11/21) (11/21) * (55/100),
         11/21 - get_market_vig (11/21) (11/21) * (45/100)) := by
  have h := claim_C2_vig_removal_amended (11/21) (11/21) (fun x _ => x)
    (by norm_num) (by norm_num) (by norm_num) (by norm_num) (by norm_num)
    (fun x _ hx => hx.le)
  exact ⟨h.1.2.2.1, h.2.1.2.2.1, h.2.2.2.2.2.1, h.1.2.2.2 rfl,
    h.2.2.2.2.2.2 rfl⟩

/-- Claim C8 (amended): the probability round-trip is exact for every
probability in `(0,1)`, and the odds round-trip is exact for true
American odds — `odds ≤ -100` or `odds > 100`; odds in the open interval
`(-100, 100)` and the value `+100`, although accepted by
`validate_fanduel_odds`, are not mapped back to themselves. -/
theorem claim_C8_roundtrip_amended :
    (∀ odds : ℚ, odds ≤ -100 →
        probability_to_american (american_to_probability odds) = odds) ∧
      (∀ odds : ℚ, 100 < odds →
        probability_to_american (american_to_probability odds) = odds) ∧
      (∀ p : ℚ, 0 < p → p < 1 →
        american_to_probability (probability_to_american p) = p) := by
  refine ⟨?_, ?_, ?_⟩
  · intro o ho
    have hneg : o < 0 := by linarith
    have hden : (0 : ℚ) < -o + 100 := by linarith
    unfold american_to_probability
    rw [if_pos hneg, abs_of_neg hneg]
    have hge : (1/2 : ℚ) ≤ -o / (-o + 100) := by
      rw [le_div_iff₀ hden]
      linarith
    unfold probability_to_american
    rw [if_pos hge]
    have hsub : 1 - -o / (-o + 100) = 100 / (-o + 100) := by
      field_simp
    rw [hsub]
    field_simp
  · intro o ho
    have hnn : ¬ o < 0 := by linarith
    have hden : (0 : ℚ) < o + 100 := by linarith
    unfold american_to_probability
    rw [if_neg hnn]
    have hlt : ¬ ((1/2 : ℚ) ≤ 100 / (o + 100)) := by
      rw [not_le, div_lt_iff₀ hden]
      linarith
    unfold probability_to_american
    rw [if_neg hlt]
    field_simp
  · intro p hp0 hp1
    have h1p : (0 : ℚ) < 1 - p := by linarith
    unfold probability_to_american
    by_cases hp : (1/2 : ℚ) ≤ p
    · rw [if_pos hp]
      have hlt : -100 * p / (1 - p) < 0 := by
        apply div_neg_of_neg_of_pos _ h1p
        linarith
      unfold american_to_probability
      rw [if_pos hlt, abs_of_neg hlt]
      rw [show -(-100 * p / (1 - p)) = 100 * p / (1 - p) from by ring,
        div_add' _ _ _ h1p.ne',
        show (100 : ℚ) * p + 100 * (1 - p) = 100 from by ring,
        div_div_div_cancel_right₀]
      · exact mul_div_cancel_left₀ p (by norm_num)
      · exact h1p.ne'
    · rw [if_neg hp]
      have hpos : 0 < 100 * (1 - p) / p := by positivity
      have hnlt : ¬ (100 * (1 - p) / p < 0) := by linarith
      unfold american_to_probability
      rw [if_neg hnlt]
      rw [div_add' _ _ _ hp0.ne',
        show (100 : ℚ) * (1 - p) + 100 * p = 100 from by ring,
        div_div_eq_mul_div]
      exact mul_div_cancel_left₀ p (by norm_num)

/-- Witness for claim C8 (amended): exact round-trips at `-110`, `150`,
and probability `2/5`. -/
theorem claim_C8_roundtrip_amended_witness :
    probability_to_american (american_to_probability (-110)) = -110 ∧
      probability_to_american (american_to_probability 150) = 150 ∧
      american_to_probability (probability_to_american (2/5)) = 2/5 :=
  ⟨claim_C8_roundtrip_amended.1 (-110) (by norm_num),
   claim_C8_roundtrip_amended.2.1 150 (by norm_num),
   claim_C8_roundtrip_amended.2.2 (2/5) (by norm_num) (by norm_num)⟩

/-- Claim C5 (amended): over every place/settle sequence starting from a
nonnegative initial bankroll in which every placement proposes a
NONNEGATIVE stake (placement-time `stake ≤ bankroll` is enforced by the
accepted check itself), the current bankroll stays ≥ 0 — in particular
after every settlement; and every settlement updates the peak bankroll to
the running max, sets the current drawdown to `(peak − current)/peak`,
and keeps the max drawdown as the running maximum of the current
drawdown. -/
theorem claim_C5_bankroll_amended (initial max_pct : ℚ) (max_daily : ℕ)
    (max_exp min_bk : ℚ) (ops : List LedgerOp)
    (hinit : 0 ≤ initial) (hops : ∀ op ∈ ops, op.nonneg_stake) :
    let s := exec_ops (Bankroll.mk0 initial max_pct max_daily max_exp min_bk) ops
    0 ≤ s.current_bankroll ∧
      ∀ bet won,
        (s.settle_bet bet won).peak_bankroll =
            max s.peak_bankroll (s.settle_bet bet won).current_bankroll ∧
          (s.settle_bet bet won).current_drawdown =
            ((s.settle_bet bet won).peak_bankroll -
              (s.settle_bet bet won).current_bankroll) /
              (s.settle_bet bet won).peak_bankroll ∧
          (s.settle_bet bet won).max_drawdown =
            max s.max_drawdown (s.settle_bet bet won).current_drawdown := by
  have hinv0 : (Bankroll.mk0 initial max_pct max_daily max_exp min_bk).Inv := by
    refine ⟨hinit, le_refl 0, ?_⟩
    intro b hb
    exact absurd hb (List.not_mem_nil b)
  have hinv := exec_ops_preserves_inv _ ops hops hinv0
  exact ⟨hinv.1, fun bet won =>
    settle_bet_drawdown_step _ bet won hinv.2.1⟩

/-- Witness for claim C5 (amended): a $50 bet placed and settled as a
loss leaves the bankroll nonnegative. -/
theorem claim_C5_bankroll_amended_witness :
    0 ≤ (exec_ops (Bankroll.mk0 1000 (5/100) 10 (10/100) 0)
      [.place ("g1") ("2024-01-01") ("moneyline_home") ("AAA") 50 (-110) 0 0,
       .settle 0 false]).current_bankroll := by
  have h := claim_C5_bankroll_amended 1000 (5/100) 10 (10/100) 0
    [.place ("g1") ("2024-01-01") ("moneyline_home") ("AAA") 50 (-110) 0 0,
     .settle 0 false] (by norm_num)
    (fun op hop => by
      rcases List.mem_cons.mp hop with rfl | hop2
      · exact (by norm_num : (0:ℚ) ≤ 50)
      · rcases List.mem_cons.mp hop2 with rfl | hop3
        · exact trivial
        · exact absurd hop3 (List.not_mem_nil op))
  exact h.1

/-- Claim C1 (code_bug evidence): `Backtester.run` calls
`self.model.fit(games)` on the FULL game list before iterating the same
list, so the rating state consulted by the predict call for the very
first processed event already contains that event's own outcome.  With a
single-game backtest (no strictly-earlier events, so a lookahead-free run
would predict from the untouched default rating 1500): (a) the post-fit
rating of the home team is above 1500 when the home side won and below
1500 when it lost — the consulted state depends on the event's outcome
fields; (b) the win probability the run records for that event changes
when only the outcome fields (`home_won`, `margin`) are flipped.  The
hypotheses on `pow10` and `logQ` (positivity, strict monotonicity,
`log 11 > 0`) all hold of the real `10 ** x` and `np.log x`. -/
theorem claim_C1_lookahead_bias (pow10 logQ : ℚ → ℚ)
    (hpos : ∀ x, 0 < pow10 x) (hmono : StrictMono pow10)
    (hlog : 0 < logQ 11) :
    (∀ st, elo_fit elo_default_config pow10 logQ [game_home_won] = .ok st →
        1500 < (st.ratings ("AAA")).getD 1500) ∧
      (∀ st, elo_fit elo_default_config pow10 logQ [game_home_lost] = .ok st →
        (st.ratings ("AAA")).getD 1500 < 1500) ∧
      backtest_predictions elo_default_config pow10 logQ [game_home_won] ≠
        backtest_predictions elo_default_config pow10 logQ [game_home_lost] := by
  have hAB : (("AAA" : String) = "BBB") = False := by simp
  have hBA : (("BBB" : String) = "AAA") = False := by simp
  have hAA : (("AAA" : String) = "AAA") = True := by simp
  have hBB : (("BBB" : String) = "BBB") = True := by simp
  have hP : 0 < pow10 (-(1/4)) := hpos _
  have he_pos : 0 < (1 + pow10 (-(1/4)))⁻¹ := by positivity
  have he_lt : (1 + pow10 (-(1/4)))⁻¹ < 1 := by
    have h1 : 1 < 1 + pow10 (-(1/4)) := by linarith
    exact inv_lt_one_of_one_lt₀ h1
  refine ⟨?_, ?_, ?_⟩
  · intro st heq
    norm_num [elo_fit, elo_fit_step, ensure_team_rating, elo_update,
      get_mov_multiplier, elo_default_config, game_home_won, List.foldl,
      hAB, hBA, hAA, hBB] at heq
    subst heq
    norm_num [game_home_won, hAB, hBA, hAA, hBB]
    nlinarith [mul_pos hlog (sub_pos.mpr he_lt)]
  · intro st heq
    norm_num [elo_fit, elo_fit_step, ensure_team_rating, elo_update,
      get_mov_multiplier, elo_default_config, game_home_lost, List.foldl,
      hAB, hBA, hAA, hBB] at heq
    subst heq
    norm_num [game_home_lost, game_home_won, hAB, hBA, hAA, hBB]
    nlinarith [mul_pos hlog he_pos]
  · intro heq
    norm_num [backtest_predictions, elo_fit, elo_fit_step, ensure_team_rating,
      elo_update, get_mov_multiplier, elo_default_config, game_home_won,
      game_home_lost, List.foldl, backtest_loop, process_game_model,
      elo_predict_proba, hAB, hBA, hAA, hBB] at heq
    have harg := hmono.injective heq
    rw [div_eq_div_iff (by norm_num) (by norm_num)] at harg
    nlinarith [mul_pos hlog he_pos, mul_pos hlog (sub_pos.mpr he_lt)]

/-- `pow10_model` is everywhere positive, like the real `x ↦ 10 ** x`. -/
theorem pow10_model_pos : ∀ x : ℚ, 0 < pow10_model x := by
  intro x
  unfold pow10_model
  split_ifs with h
  · linarith
  · have hx : x < 0 := not_le.mp h
    exact div_pos one_pos (by linarith)

/-- `pow10_model` is strictly monotone, like the real `x ↦ 10 ** x`. -/
theorem pow10_model_strictMono : StrictMono pow10_model := by
  intro a b hab
  unfold pow10_model
  by_cases ha : 0 ≤ a
  · rw [if_pos ha, if_pos (le_trans ha hab.le)]
    linarith
  · rw [if_neg ha]
    have ha' : a < 0 := not_le.mp ha
    by_cases hb : 0 ≤ b
    · rw [if_pos hb]
      have hfrac : 1 / (1 - a) < 1 := by
        rw [div_lt_one (by linarith)]
        linarith
      linarith
    · rw [if_neg hb]
      have hb' : b < 0 := not_le.mp hb
      exact one_div_lt_one_div_of_lt (by linarith) (by linarith)

/-- Witness for claim C1: with the concrete positive strictly monotone
stand-in for `10 ** x` and a constant positive stand-in for `np.log`, the
single-game backtest's recorded prediction changes when only the game's
outcome fields are flipped. -/
theorem claim_C1_lookahead_bias_witness :
    backtest_predictions elo_default_config pow10_model (fun _ => 1)
        [game_home_won] ≠
      backtest_predictions elo_default_config pow10_model (fun _ => 1)
        [game_home_lost] :=
  (claim_C1_lookahead_bias pow10_model (fun _ => 1) pow10_model_pos
    pow10_model_strictMono (by norm_num)).2.2

end QuantumCryptex
